import Mathlib

/-!
Verification of the agentic orchestration loop of
`src/services/groqService.js` (class `GroqService`), together with the
source deduplicator and the error/recovery policy.

The JavaScript code is shallowly embedded: the Groq chat-completion
endpoint and the Tavily search/extract backends are modelled as oracles
(functions from a call index — and, for the completion endpoint, the
request actually sent — to a result), `JSON.parse` of a tool call's raw
argument text is modelled by the `Option`-valued field that carries its
outcome, and the `while` loop becomes fuel-based recursion where the fuel
supplied by `chat` is the loop bound itself, so the fuel never runs out
before the `iteration < maxSteps` guard fails.  Progress emission
(`onProgress` / `emit`) is effect-only in the source — every emission is
wrapped in a swallowing `try` — and touches no state read later, so it is
not represented.  Wall-clock values (`Date.now()`, the date/time strings
interpolated into the system prompt) are supplied by the environment.
-/

namespace GroqService

/-- A source citation as produced by `tavilyService.extractSources`:
`{title, url, domain, favicon}`.  `url` is a string; the JavaScript
falsiness test `!s.url` holds exactly for the empty string (an absent
field is modelled as `""`). -/
structure Source where
  title : String
  url : String
  domain : String
  favicon : String
  deriving Repr, DecidableEq

/-- `deduplicateSources` (groqService.js lines 424-431): a `filter` over
the input driven by a mutable `seen` set of URLs; an element is dropped
when `!s.url || seen.has(s.url)` and otherwise kept, adding its URL to
`seen`.  The mutable set threads through as the `seen` argument. -/
def dedupeAux (seen : List String) : List Source → List Source
  | [] => []
  | s :: rest =>
    if s.url = "" ∨ seen.contains s.url then dedupeAux seen rest
    else s :: dedupeAux (s.url :: seen) rest

/-- `GroqService.deduplicateSources(sources)`. -/
def deduplicateSources (sources : List Source) : List Source :=
  dedupeAux [] sources

/-- Modelled from the spec: `dedupe(sources) → ordered sequence`, unique
by URL, first occurrence wins, original relative order preserved among
kept elements — with no further exception.  Used to compare the code's
deduplicator against the spec's words. -/
def dedupeSpecAux (seen : List String) : List Source → List Source
  | [] => []
  | s :: rest =>
    if seen.contains s.url then dedupeSpecAux seen rest
    else s :: dedupeSpecAux (s.url :: seen) rest

/-- Modelled from the spec: first-occurrence-wins deduplication by URL. -/
def dedupeSpec (sources : List Source) : List Source :=
  dedupeSpecAux [] sources

/-- JavaScript `a || b` on a possibly-absent string: the empty string and
an absent value are falsy. -/
def jsOrStr : Option String → String → String
  | none, d => d
  | some s, d => if s = "" then d else s

/-- JavaScript `a || b` on a possibly-absent number: `0` and an absent
value are falsy. -/
def jsOrNat : Option Nat → Nat → Nat
  | none, d => d
  | some n, d => if n = 0 then d else n

/-- JavaScript truthiness of a possibly-absent string. -/
def jsTruthyStr : Option String → Bool
  | none => false
  | some s => s ≠ ""

/-- `haystack.includes(needle)` on strings. -/
def strIncludes (haystack needle : String) : Bool :=
  decide (needle.data <:+: haystack.data)

/-- The character `U+007B` (opening curly brace), used by the
`apiError.message?.includes` check in the salvage branch. -/
def braceChar : Char := Char.ofNat 123

/-- Parsed tool-call arguments: the object produced by a successful
`JSON.parse(toolCall.function.arguments)`.  Fields the JSON text did not
supply are absent (`none` / `[]`), mirroring `undefined` property reads. -/
structure ToolArgs where
  query : String := ""
  topic : Option String := none
  search_depth : Option String := none
  max_results : Option Nat := none
  urls : List String := []
  deriving Repr, DecidableEq

/-- A tool-call request emitted by the model.  `parsedArgs` carries the
outcome of `JSON.parse(toolCall.function.arguments)`: `some args` when
the raw JSON text parses, `none` when `JSON.parse` throws. -/
structure ToolCall where
  id : String
  name : String
  parsedArgs : Option ToolArgs
  deriving Repr, DecidableEq

/-- An assistant message returned by a chat completion.  A response with
no `tool_calls` property is modelled by the empty list, matching the
source's `!assistantMsg.tool_calls || assistantMsg.tool_calls.length === 0`
test. -/
structure AssistantMsg where
  content : String
  tool_calls : List ToolCall := []
  deriving Repr, DecidableEq

inductive Role
  | system
  | user
  | assistant
  | tool
  deriving Repr, DecidableEq

/-- A transcript message. -/
structure Message where
  role : Role
  content : String
  tool_calls : List ToolCall := []
  tool_call_id : Option String := none
  deriving Repr, DecidableEq

/-- An error thrown by `groq.chat.completions.create`.  `errorCode`
models `(apiError.error || apiError.body?.error || {}).code || apiError.code`;
`failed_generation` models `errorBody.failed_generation`;
`messageEmbeddedFailedGeneration` models the value
`JSON.parse(apiError.message.substring(indexOf brace)).error?.failed_generation`
when that parse succeeds and the property is present, and is `none` when
the parse throws or the property is absent (in both cases the source
leaves `finalFailedText` falsy, so the collapse is behaviour-preserving). -/
structure ApiError where
  status : Option Nat := none
  errorCode : Option String := none
  message : String := ""
  failed_generation : Option String := none
  messageEmbeddedFailedGeneration : Option String := none
  deriving Repr, DecidableEq

/-- A result of `tavilyService.search`.  `sources` is `none` when the
result object has no `sources` property (the failure shape), matching the
source's `searchResult.sources?` optional chaining; a present-but-empty
array is `some []`. -/
structure SearchResult where
  success : Bool
  answer : Option String := none
  results : String := ""
  sources : Option (List Source) := none
  error : String := ""
  code : String := ""
  deriving Repr, DecidableEq

/-- One entry of `tavilyService.extract`'s `results` array. -/
structure ExtractItem where
  url : String
  content : String := ""
  raw_content : Option String := none
  deriving Repr, DecidableEq

/-- A result of `tavilyService.extract`. -/
structure ExtractResult where
  success : Bool
  results : List ExtractItem := []
  error : String := ""
  deriving Repr, DecidableEq

/-- The `tool_choice` directive: `'auto'`, `'none'`, or the forced shape
`{type: 'function', function: {name}}`. -/
inductive ToolChoice
  | auto
  | none
  | forced (fname : String)
  deriving Repr, DecidableEq

/-- A tool definition offered to the completion endpoint.  The constant
JSON schemas `WEB_SEARCH_TOOL` and `BROWSER_EXTRACT_TOOL` are static data
never inspected by the orchestrator, so each is represented by its tag. -/
inductive ToolDef
  | web_search
  | browser_extract
  deriving Repr, DecidableEq

/-- The request object passed to `groq.chat.completions.create`.
Temperatures are exact multiples of a tenth in the source (0.4, 0.5, 0.7),
recorded here in tenths.  `tools`/`tool_choice` are `none` when the
source passes `undefined` (the property is omitted). -/
structure CallOptions where
  model : String
  messages : List Message
  temperatureTenths : Nat
  tools : Option (List ToolDef) := Option.none
  tool_choice : Option ToolChoice := Option.none
  deriving Repr, DecidableEq

/-- Outcome of one `groq.chat.completions.create` call: a response or a
thrown error. -/
inductive ProviderResult
  | ok (msg : AssistantMsg)
  | err (e : ApiError)
  deriving Repr, DecidableEq

/-- The external world: the completion endpoint (indexed by how many
completion calls the run has issued so far, and given the request
actually sent), the Tavily search and extract backends (indexed by call
count), and the wall-clock strings interpolated into the system prompt. -/
structure Env where
  provider : Nat → CallOptions → ProviderResult
  search : Nat → SearchResult
  extract : Nat → ExtractResult
  dateStr : String := ""
  timeStr : String := ""

/-- The options object destructured at the top of `chat`:
`{forceSearch = false, context = '', isDeepResearch = false}`. -/
structure ChatOptions where
  forceSearch : Bool := false
  context : String := ""
  isDeepResearch : Bool := false
  deriving Repr, DecidableEq

/-- The third parameter of `chat`: an options object, or a bare boolean
(legacy `forceSearch`). -/
inductive OptionsOrForceSearch
  | asBool (b : Bool)
  | asObject (o : ChatOptions)
  deriving Repr, DecidableEq

/-- Lines 188-190: a boolean third argument is normalized to
`{forceSearch: b}` before any other processing. -/
def normalizeOptions : OptionsOrForceSearch → ChatOptions
  | .asBool b => { forceSearch := b }
  | .asObject o => o

def MODEL_NAME : String := "meta-llama/llama-4-scout-17b-16e-instruct"

/-- `MAX_AGENTIC_STEPS` (line 19). -/
def MAX_AGENTIC_STEPS : Nat := 6

/-- `SYSTEM_PROMPT` (lines 21-96).  The prompt is a fixed string constant
the orchestrator never inspects; its prose (response style, citation
rules, search guidance, mermaid formatting) is abbreviated to its opening
sentence, which is inert to every property proved here. -/
def SYSTEM_PROMPT : String :=
  "You are an expert AI assistant with real-time web search capabilities."

/-- `DEEP_RESEARCH_PROMPT` (lines 150-171), likewise a fixed string the
orchestrator never inspects, abbreviated to its heading. -/
def DEEP_RESEARCH_PROMPT : String :=
  "## DEEP RESEARCH PROTOCOL (MODE: ENABLED)"

/-- The synthetic user instruction injected by the forced-continuation
branch (lines 316-319), verbatim. -/
def CONTINUATION_INSTRUCTION : String :=
  "The research so far is too shallow or repetitive. Please identify at least 3 NEW, distinct angles, technical details, or specific data points you haven\x27t investigated yet. Broaden the search to completely new sources to ensure a truly comprehensive report."

inductive StepType
  | searching
  | reading
  deriving Repr, DecidableEq

/-- A search/extract step recorded in `searchSteps`, with its final field
values (the source creates the step with `status: 'running'` and mutates
it once on completion; only the final value is observable in the result).
The wall-clock `timestamp` field (`Date.now()`), and the `Date.now()`
suffix of extract step ids, are not represented. -/
structure Step where
  id : String
  type : StepType
  query : Option String := Option.none
  topic : Option String := Option.none
  depth : Option String := Option.none
  urls : Option (List String) := Option.none
  status : String
  resultCount : Option Nat := Option.none
  deriving Repr, DecidableEq

/-- The mutable run state of one `chat` invocation, plus the oracle call
counters and the trace of completion requests issued (the arguments the
source passes to `groq.chat.completions.create`, in order). -/
structure LoopState where
  messages : List Message
  iteration : Nat := 0
  totalSearchCount : Nat := 0
  searchSteps : List Step := []
  allSources : List Source := []
  providerCalls : Nat := 0
  searchCalls : Nat := 0
  extractCalls : Nat := 0
  requests : List CallOptions := []
  deriving Repr, DecidableEq

/-- Lines 282-295: the `tool_use_failed` salvage condition
`status === 400 && (errorCode === 'tool_use_failed' || message.includes('tool_use_failed'))`. -/
def toolUseFailedCond (e : ApiError) : Bool :=
  (e.status == some 400) &&
    ((e.errorCode == some "tool_use_failed") || strIncludes e.message "tool_use_failed")

/-- Lines 283-290: `finalFailedText`, i.e. `errorBody.failed_generation`,
falling back — when that is falsy and the message contains a brace — to
the `failed_generation` recovered from the JSON embedded in the message. -/
def finalFailedText (e : ApiError) : Option String :=
  if jsTruthyStr e.failed_generation then e.failed_generation
  else if e.message.data.contains braceChar then
    match e.messageEmbeddedFailedGeneration with
    | some t => some t
    | Option.none => e.failed_generation
  else e.failed_generation

/-- Lines 282-295 combined: the natural-language answer salvaged from a
`tool_use_failed` error, when `finalFailedText && finalFailedText.length > 20`. -/
def salvagedAnswer (e : ApiError) : Option String :=
  if toolUseFailedCond e then
    match finalFailedText e with
    | some t => if t ≠ "" ∧ t.length > 20 then some t else Option.none
    | Option.none => Option.none
  else Option.none

/-- Lines 330-393: the body of the `Promise.all` map over one response's
tool calls, for a single call.  Parse failure returns the error
tool-result immediately (no counter, step, or source change); `web_search`
increments `totalSearchCount`, records a step whose final status reflects
the Tavily result and appends its sources on success; `browser_extract`
records a reading step and touches neither counter nor sources; an
unknown tool name yields the constant result.  Returns the tool-result
message and the updated state. -/
def processOneToolCall (env : Env) (isDeepResearch : Bool) (iteration : Nat)
    (st : LoopState) (tc : ToolCall) : Message × LoopState :=
  match tc.parsedArgs with
  | Option.none =>
    ({ role := .tool, content := "Invalid JSON arguments.", tool_call_id := some tc.id }, st)
  | some args =>
    if tc.name = "web_search" then
      let query := args.query
      let topic := args.topic.getD "general"
      let search_depth := if isDeepResearch then "advanced" else jsOrStr args.search_depth "basic"
      let newCount := st.totalSearchCount + 1
      let searchResult := env.search st.searchCalls
      let resultCount :=
        if searchResult.success then (searchResult.sources.map List.length).getD 0 else 0
      let step : Step := {
        id := "step-" ++ toString iteration ++ "-" ++ toString newCount,
        type := .searching,
        query := some query, topic := some topic, depth := some search_depth,
        status := if searchResult.success then "done" else "error",
        resultCount := some resultCount }
      let newSources :=
        if searchResult.success then
          match searchResult.sources with
          | some srcs => srcs
          | Option.none => []
        else []
      let content :=
        if searchResult.success then searchResult.results
        else "Search failed: " ++ searchResult.error
      ({ role := .tool, content := content, tool_call_id := some tc.id },
       { st with totalSearchCount := newCount,
                 searchCalls := st.searchCalls + 1,
                 searchSteps := st.searchSteps ++ [step],
                 allSources := st.allSources ++ newSources })
    else if tc.name = "browser_extract" then
      let urls := args.urls
      let extractResult := env.extract st.extractCalls
      let step : Step := {
        id := "extract-" ++ toString iteration,
        type := .reading,
        urls := some urls,
        status := if extractResult.success then "done" else "error" }
      let content :=
        if extractResult.success then
          "Extracted Content:\n" ++
            String.intercalate "\n\n---\n\n"
              (extractResult.results.map fun r =>
                "URL: " ++ r.url ++ "\nCONTENT: " ++ jsOrStr r.raw_content r.content)
        else "Extraction failed: " ++ extractResult.error
      ({ role := .tool, content := content, tool_call_id := some tc.id },
       { st with extractCalls := st.extractCalls + 1,
                 searchSteps := st.searchSteps ++ [step] })
    else
      ({ role := .tool, content := "Unknown tool.", tool_call_id := some tc.id }, st)

/-- Lines 330-396: process one response's tool calls.  The source
dispatches the calls concurrently via `Promise.all`, but every state
write except the `allSources` appends happens synchronously before the
first `await` of each callback (the callbacks are invoked in request
order by `map`), and `Promise.all` reassembles the tool-result messages
in request order; sequential left-to-right processing therefore computes
the same counters, steps, oracle indices and transcript, and fixes one
admissible interleaving for the order of `allSources` appends within a
round. -/
def processToolCalls (env : Env) (isDeepResearch : Bool) (iteration : Nat) :
    LoopState → List ToolCall → List Message × LoopState
  | st, [] => ([], st)
  | st, tc :: rest =>
    let r := processOneToolCall env isDeepResearch iteration st tc
    let rs := processToolCalls env isDeepResearch iteration r.2 rest
    (r.1 :: rs.1, rs.2)

/-- Conversion of a provider response to a transcript message
(`messages.push(assistantMsg)`). -/
def assistantToMessage (m : AssistantMsg) : Message :=
  { role := .assistant, content := m.content, tool_calls := m.tool_calls }

/-- The synthetic continuation message pushed by lines 316-319. -/
def continuationMessage : Message :=
  { role := .user, content := CONTINUATION_INSTRUCTION }

/-- Outcome of one iteration of the `while` loop. -/
inductive RoundOutcome
  | next (st : LoopState)
  | answered (m : AssistantMsg) (st : LoopState)
  | thrown (e : ApiError) (st : LoopState)
  deriving Repr

/-- Lines 257-263: the `callOptions` object of one loop iteration, built
against the pre-increment state (the iteration number used for the
forced-tool-choice check is the incremented one). -/
def roundCallOptions (options : ChatOptions) (tools : List ToolDef)
    (toolChoice : ToolChoice) (st0 : LoopState) : CallOptions :=
  { model := MODEL_NAME,
    messages := st0.messages,
    temperatureTenths := if options.isDeepResearch then 4 else 7,
    tools := if tools.length > 0 then some tools else Option.none,
    tool_choice :=
      if tools.length > 0 then
        some (if st0.iteration + 1 = 1 ∧ options.forceSearch then toolChoice
              else ToolChoice.auto)
      else Option.none }

/-- The state right after `iteration++` and the completion call of one
round: the counter is bumped and the issued request is recorded. -/
def roundEnter (options : ChatOptions) (tools : List ToolDef)
    (toolChoice : ToolChoice) (st0 : LoopState) : LoopState :=
  { st0 with
    iteration := st0.iteration + 1,
    providerCalls := st0.providerCalls + 1,
    requests := st0.requests ++ [roundCallOptions options tools toolChoice st0] }

/-- Line 299: the tool-free degraded-synthesis request issued inside the
`catch` when prior searches exist. -/
def synthRequest (st : LoopState) : CallOptions :=
  { model := MODEL_NAME, messages := st.messages, temperatureTenths := 7 }

/-- The state after the degraded-synthesis call of the `catch` branch. -/
def afterSynth (st : LoopState) : LoopState :=
  { st with
    providerCalls := st.providerCalls + 1,
    requests := st.requests ++ [synthRequest st] }

/-- Lines 253-397: one iteration of the agentic `while` loop, entered
with `st.iteration < maxSteps` already checked.  Increments the
iteration counter, issues the completion request (recording it), then
branches: a thrown provider error goes through the `tool_use_failed`
salvage, then degraded synthesis when `totalSearchCount > 0`, else
rethrows; a tool-free response either triggers the deep-research forced
continuation or ends the loop with the answer; a response with tool
calls is appended and its calls are processed. -/
def round (env : Env) (options : ChatOptions) (tools : List ToolDef)
    (toolChoice : ToolChoice) (maxSteps : Nat) (st0 : LoopState) : RoundOutcome :=
  let callOptions := roundCallOptions options tools toolChoice st0
  let resp := env.provider st0.providerCalls callOptions
  let st := roundEnter options tools toolChoice st0
  match resp with
  | .err e =>
    match salvagedAnswer e with
    | some t => .answered { content := t } st
    | Option.none =>
      if st.totalSearchCount > 0 then
        match env.provider st.providerCalls (synthRequest st) with
        | .ok m => .answered m (afterSynth st)
        | .err _ => .thrown e (afterSynth st)
      else .thrown e st
  | .ok assistantMsg =>
    if assistantMsg.tool_calls = [] then
      if options.isDeepResearch ∧ st.totalSearchCount < 4 ∧ st.iteration < maxSteps then
        .next { st with messages :=
          st.messages ++ [assistantToMessage assistantMsg, continuationMessage] }
      else .answered assistantMsg st
    else
      let stPushed : LoopState :=
        { st with messages := st.messages ++ [assistantToMessage assistantMsg] }
      let pr := processToolCalls env options.isDeepResearch st.iteration
        stPushed assistantMsg.tool_calls
      .next { pr.2 with messages := pr.2.messages ++ pr.1 }

/-- Exit of the agentic loop: a captured `lastAssistantMessage` (`break`),
exhaustion of the iteration budget with no answer, or a thrown error
propagating to the outer `catch`. -/
inductive LoopExit
  | answered (lastAssistantMessage : AssistantMsg) (st : LoopState)
  | exhausted (st : LoopState)
  | thrown (e : ApiError) (st : LoopState)
  deriving Repr

/-- The `while (iteration < maxSteps)` loop, as fuel-based recursion.
`chat` supplies `maxSteps` as the fuel; since each round increments
`iteration` by exactly one, the fuel runs out only when the guard is
false, so the recursion agrees with the source's `while`. -/
def agentLoop (env : Env) (options : ChatOptions) (tools : List ToolDef)
    (toolChoice : ToolChoice) (maxSteps : Nat) : Nat → LoopState → LoopExit
  | 0, st => .exhausted st
  | fuel + 1, st =>
    if st.iteration < maxSteps then
      match round env options tools toolChoice maxSteps st with
      | .next st' => agentLoop env options tools toolChoice maxSteps fuel st'
      | .answered m st' => .answered m st'
      | .thrown e st' => .thrown e st'
    else .exhausted st

/-- The success shape returned by `chat` (lines 410-417). -/
structure ChatResult where
  response : String
  searchPerformed : Bool
  sources : List Source
  searchSteps : List Step
  totalSteps : Nat
  totalSearches : Nat
  deriving Repr, DecidableEq

/-- The structured failure returned by `handleError` (lines 433-441);
`success` is always `false`. -/
structure ErrorResult where
  success : Bool
  error : String
  code : String
  deriving Repr, DecidableEq

/-- `GroqService.handleError` (lines 433-441). -/
def handleError (e : ApiError) : ErrorResult :=
  if e.status = some 429 then
    { success := false, error := "Rate limit exceeded.", code := "RATE_LIMIT" }
  else if e.status = some 401 ∨ e.status = some 403 then
    { success := false, error := "Auth error.", code := "AUTH_ERROR" }
  else
    { success := false, error := "AI service temporarily unavailable.", code := "GROQ_ERROR" }

/-- What `chat` returns: the success object or the `handleError` shape. -/
inductive ChatOutcome
  | success (r : ChatResult)
  | failure (e : ErrorResult)
  deriving Repr, DecidableEq

/-- The outcome of a run together with the trace of completion requests
the run issued (loop requests, degraded-synthesis requests, and the
final synthesis request, in order). -/
structure RunOutput where
  outcome : ChatOutcome
  requests : List CallOptions
  deriving Repr

/-- Lines 210-228: the system prompt assembled for this run. -/
def buildSystemPrompt (env : Env) (options : ChatOptions) : String :=
  let base := SYSTEM_PROMPT ++
    "\n\n## CURRENT REAL-WORLD CONTEXT\n- Current Date: " ++ env.dateStr ++
    "\n- Current Time: " ++ env.timeStr ++ "\n\nYou MUST use this time context."
  let base := if options.isDeepResearch then base ++ "\n\n" ++ DEEP_RESEARCH_PROMPT else base
  if options.context ≠ "" then
    base ++ "\n\nRELEVANT CONTEXT FROM DOCUMENTS:\n" ++ options.context
  else base

/-- Lines 230-243 (tool list): `[WEB_SEARCH_TOOL]`, plus
`BROWSER_EXTRACT_TOOL` in deep-research mode, emptied when a non-empty
`context` is supplied. -/
def toolsFor (options : ChatOptions) : List ToolDef :=
  let tools := [ToolDef.web_search] ++
    (if options.isDeepResearch then [ToolDef.browser_extract] else [])
  if options.context ≠ "" then [] else tools

/-- Lines 236-243 (tool-choice variable): `'auto'`, overridden to
`'none'` when a non-empty `context` is supplied, else to the forced
`web_search` shape when `forceSearch` is set. -/
def toolChoiceFor (options : ChatOptions) : ToolChoice :=
  if options.context ≠ "" then ToolChoice.none
  else if options.forceSearch then ToolChoice.forced "web_search"
  else ToolChoice.auto

/-- Lines 224-228: the initial transcript. -/
def initialMessages (env : Env) (options : ChatOptions)
    (message : String) (history : List Message) : List Message :=
  { role := Role.system, content := buildSystemPrompt env options } ::
    (history ++ [{ role := Role.user, content := message }])

/-- Line 251: `maxSteps = isDeepResearch ? 10 : MAX_AGENTIC_STEPS`. -/
def maxStepsFor (options : ChatOptions) : Nat :=
  if options.isDeepResearch then 10 else MAX_AGENTIC_STEPS

/-- `GroqService.chat` (lines 186-422), returning the outcome together
with the trace of completion requests.  After the loop: a `null`
`lastAssistantMessage` triggers the final synthesis call (whose failure
reaches the outer `catch`); otherwise the captured answer is assembled
with deduplicated sources, the recorded steps, and the counters. -/
def chatFull (env : Env) (message : String) (history : List Message)
    (optionsOrForceSearch : OptionsOrForceSearch) : RunOutput :=
  let options := normalizeOptions optionsOrForceSearch
  let tools := toolsFor options
  let toolChoice := toolChoiceFor options
  let maxSteps := maxStepsFor options
  let st0 : LoopState := { messages := initialMessages env options message history }
  let assemble : AssistantMsg → LoopState → List CallOptions → RunOutput :=
    fun m st reqs =>
      { outcome := .success {
          response := m.content,
          searchPerformed := decide (st.totalSearchCount > 0),
          sources := deduplicateSources st.allSources,
          searchSteps := st.searchSteps,
          totalSteps := st.iteration,
          totalSearches := st.totalSearchCount },
        requests := reqs }
  match agentLoop env options tools toolChoice maxSteps maxSteps st0 with
  | .answered m st => assemble m st st.requests
  | .exhausted st =>
    let finalReq : CallOptions :=
      { model := MODEL_NAME, messages := st.messages, temperatureTenths := 5 }
    match env.provider st.providerCalls finalReq with
    | .ok m => assemble m st (st.requests ++ [finalReq])
    | .err e => { outcome := .failure (handleError e), requests := st.requests ++ [finalReq] }
  | .thrown e st => { outcome := .failure (handleError e), requests := st.requests }

/-- `GroqService.chat`: the value returned to the caller. -/
def chat (env : Env) (message : String) (history : List Message)
    (optionsOrForceSearch : OptionsOrForceSearch) : ChatOutcome :=
  (chatFull env message history optionsOrForceSearch).outcome

/-- Whether a round outcome re-enters the loop (`continue` / fallthrough
to the next `while` test) rather than breaking or throwing. -/
def RoundOutcome.isNext : RoundOutcome → Bool
  | .next _ => true
  | .answered _ _ => false
  | .thrown _ _ => false

/-- The run state carried by a round outcome. -/
def RoundOutcome.state : RoundOutcome → LoopState
  | .next st => st
  | .answered _ st => st
  | .thrown _ st => st

/-- The run state carried by a loop exit. -/
def LoopExit.state : LoopExit → LoopState
  | .answered _ st => st
  | .exhausted st => st
  | .thrown _ st => st

/-- Whether the loop ended by exhausting the iteration budget with no
captured answer (`lastAssistantMessage === null` after the loop). -/
def LoopExit.isExhausted : LoopExit → Bool
  | .answered _ _ => false
  | .exhausted _ => true
  | .thrown _ _ => false

/-- The number of `web_search` calls in a list whose arguments parsed:
exactly the calls for which the source increments `totalSearchCount`. -/
def countParsedWebSearch (calls : List ToolCall) : Nat :=
  (calls.filter (fun c => c.name == "web_search" && c.parsedArgs.isSome)).length

/-- A search backend that always fails; used by concrete runs below. -/
def failingSearch : Nat → SearchResult := fun _ => { success := false }

/-- An extract backend that always fails; used by concrete runs below. -/
def failingExtract : Nat → ExtractResult := fun _ => { success := false }

/-- A concrete environment whose model emits one `web_search` call with
unparseable JSON arguments on the first turn and a plain answer on the
second. -/
def invalidJsonEnv : Env :=
  { provider := fun n _ =>
      if n = 0 then
        .ok { content := "",
              tool_calls := [{ id := "call_1", name := "web_search",
                               parsedArgs := Option.none }] }
      else .ok { content := "done" },
    search := failingSearch, extract := failingExtract }

/-- A concrete deep-research environment: the model's first turn issues
one `browser_extract` call that succeeds; the second completion call
throws a plain 500 error. -/
def extractThenErrorEnv : Env :=
  { provider := fun n _ =>
      if n = 0 then
        .ok { content := "",
              tool_calls := [{ id := "c1", name := "browser_extract",
                               parsedArgs := some { urls := ["http://a"] } }] }
      else .err { status := some 500 },
    search := failingSearch,
    extract := fun _ =>
      { success := true, results := [{ url := "http://a", content := "body" }] } }

/-- A model that always replies with the same tool-free answer. -/
def plainAnswerEnv : Env :=
  { provider := fun _ _ => .ok { content := "4" },
    search := failingSearch, extract := failingExtract }

/-- The result of a one-iteration run against `plainAnswerEnv`. -/
def plainResult : ChatResult :=
  { response := "4", searchPerformed := false, sources := [], searchSteps := [],
    totalSteps := 1, totalSearches := 0 }

/-- A model that requests one `web_search` on each of the first six
turns and answers plainly afterwards; the backend search always succeeds
with no source list.  A non-deep run against it exhausts its six-round
budget and needs the final synthesis call. -/
def alwaysSearchEnv : Env :=
  { provider := fun n _ =>
      if n < 6 then
        .ok { content := "",
              tool_calls := [{ id := "c", name := "web_search",
                               parsedArgs := some { query := "x" } }] }
      else .ok { content := "final" },
    search := fun _ => { success := true, results := "r" },
    extract := failingExtract }

theorem dedupeAux_eq_spec_filter (l : List Source) :
    ∀ seen, dedupeAux seen l = dedupeSpecAux seen (l.filter (fun s => s.url ≠ "")) := by
  induction l with
  | nil => intro seen; rfl
  | cons s rest ih =>
    intro seen
    by_cases hurl : s.url = ""
    · simp [dedupeAux, dedupeSpecAux, List.filter, hurl, ih]
    · by_cases hseen : seen.contains s.url
      · simp [dedupeAux, dedupeSpecAux, List.filter, hurl, hseen, ih]
      · simp [dedupeAux, dedupeSpecAux, List.filter, hurl, hseen, ih]

theorem dedupeAux_sublist (l : List Source) :
    ∀ seen, (dedupeAux seen l).Sublist l := by
  induction l with
  | nil => intro seen; simp [dedupeAux]
  | cons s rest ih =>
    intro seen
    by_cases h : s.url = "" ∨ seen.contains s.url
    · simp only [dedupeAux, if_pos h]
      exact (ih seen).cons s
    · simp only [dedupeAux, if_neg h]
      exact (ih (s.url :: seen)).cons₂ s

theorem dedupeAux_mem_url {l : List Source} :
    ∀ seen s, s ∈ dedupeAux seen l → ¬ seen.contains s.url := by
  induction l with
  | nil => intro seen s hs; simp [dedupeAux] at hs
  | cons a rest ih =>
    intro seen s hs
    by_cases h : a.url = "" ∨ seen.contains a.url
    · rw [dedupeAux, if_pos h] at hs
      exact ih seen s hs
    · rw [dedupeAux, if_neg h] at hs
      rcases List.mem_cons.mp hs with heq | hmem
      · subst heq
        push_neg at h
        simpa using h.2
      · intro hcon
        exact ih (a.url :: seen) s hmem
          (by simp only [List.contains_cons, hcon, Bool.or_true])

theorem dedupeAux_pairwise (l : List Source) :
    ∀ seen, (dedupeAux seen l).Pairwise (fun a b => a.url ≠ b.url) := by
  induction l with
  | nil => intro seen; simp [dedupeAux]
  | cons s rest ih =>
    intro seen
    by_cases h : s.url = "" ∨ seen.contains s.url
    · simp only [dedupeAux, if_pos h]
      exact ih seen
    · simp only [dedupeAux, if_neg h]
      refine List.Pairwise.cons ?_ (ih (s.url :: seen))
      intro b hb heq
      exact dedupeAux_mem_url (s.url :: seen) b hb (by simp [heq])

theorem processOneToolCall_frame (env : Env) (d : Bool) (i : Nat)
    (st : LoopState) (tc : ToolCall) :
    (processOneToolCall env d i st tc).2.iteration = st.iteration ∧
    (processOneToolCall env d i st tc).2.messages = st.messages ∧
    (processOneToolCall env d i st tc).2.providerCalls = st.providerCalls ∧
    (processOneToolCall env d i st tc).2.requests = st.requests := by
  rcases htc : tc.parsedArgs with _ | args
  · simp [processOneToolCall, htc]
  · by_cases h1 : tc.name = "web_search"
    · simp [processOneToolCall, htc, h1]
    · by_cases h2 : tc.name = "browser_extract"
      · simp [processOneToolCall, htc, h1, h2]
      · simp [processOneToolCall, htc, h1, h2]

theorem processOneToolCall_count (env : Env) (d : Bool) (i : Nat)
    (st : LoopState) (tc : ToolCall) :
    (processOneToolCall env d i st tc).2.totalSearchCount =
      st.totalSearchCount + countParsedWebSearch [tc] := by
  rcases htc : tc.parsedArgs with _ | args
  · simp [processOneToolCall, countParsedWebSearch, List.filter, htc]
  · by_cases h1 : tc.name = "web_search"
    · simp [processOneToolCall, countParsedWebSearch, List.filter, htc, h1, beq_iff_eq]
    · have hb : (tc.name == "web_search") = false := by simp [h1]
      by_cases h2 : tc.name = "browser_extract"
      · simp [processOneToolCall, countParsedWebSearch, List.filter, htc, h1, h2, hb]
      · simp [processOneToolCall, countParsedWebSearch, List.filter, htc, h1, h2, hb]

theorem processOneToolCall_sources_of_other (env : Env) (d : Bool) (i : Nat)
    (st : LoopState) (tc : ToolCall) (h : tc.name ≠ "web_search") :
    (processOneToolCall env d i st tc).2.allSources = st.allSources := by
  rcases htc : tc.parsedArgs with _ | args
  · simp [processOneToolCall, htc]
  · by_cases h2 : tc.name = "browser_extract"
    · simp [processOneToolCall, htc, h, h2]
    · simp [processOneToolCall, htc, h, h2]

theorem processToolCalls_frame (env : Env) (d : Bool) (i : Nat) :
    ∀ (calls : List ToolCall) (st : LoopState),
    (processToolCalls env d i st calls).2.iteration = st.iteration ∧
    (processToolCalls env d i st calls).2.messages = st.messages ∧
    (processToolCalls env d i st calls).2.providerCalls = st.providerCalls ∧
    (processToolCalls env d i st calls).2.requests = st.requests := by
  intro calls
  induction calls with
  | nil => intro st; simp [processToolCalls]
  | cons tc rest ih =>
    intro st
    have h1 := processOneToolCall_frame env d i st tc
    have h2 := ih (processOneToolCall env d i st tc).2
    simp only [processToolCalls]
    exact ⟨h2.1.trans h1.1, h2.2.1.trans h1.2.1,
           h2.2.2.1.trans h1.2.2.1, h2.2.2.2.trans h1.2.2.2⟩

theorem processToolCalls_count (env : Env) (d : Bool) (i : Nat) :
    ∀ (calls : List ToolCall) (st : LoopState),
    (processToolCalls env d i st calls).2.totalSearchCount =
      st.totalSearchCount + countParsedWebSearch calls := by
  intro calls
  induction calls with
  | nil => intro st; simp [processToolCalls, countParsedWebSearch]
  | cons tc rest ih =>
    intro st
    have h1 := processOneToolCall_count env d i st tc
    have h2 := ih (processOneToolCall env d i st tc).2
    simp only [processToolCalls]
    rw [h2, h1]
    have hsplit : countParsedWebSearch (tc :: rest) =
        countParsedWebSearch [tc] + countParsedWebSearch rest := by
      cases hf : (tc.name == "web_search" && tc.parsedArgs.isSome)
      · simp [countParsedWebSearch, List.filter, hf]
      · simp [countParsedWebSearch, List.filter, hf]
        omega
    rw [hsplit]
    omega

theorem processToolCalls_sources_of_other (env : Env) (d : Bool) (i : Nat) :
    ∀ (calls : List ToolCall) (st : LoopState),
    (∀ tc ∈ calls, tc.name ≠ "web_search") →
    (processToolCalls env d i st calls).2.allSources = st.allSources := by
  intro calls
  induction calls with
  | nil => intro st _; simp [processToolCalls]
  | cons tc rest ih =>
    intro st hall
    have h1 := processOneToolCall_sources_of_other env d i st tc
      (hall tc (List.mem_cons_self tc rest))
    have h2 := ih (processOneToolCall env d i st tc).2
      (fun c hc => hall c (List.mem_cons_of_mem tc hc))
    simp only [processToolCalls]
    exact h2.trans h1

theorem round_iteration (env : Env) (options : ChatOptions) (tools : List ToolDef)
    (tcv : ToolChoice) (ms : Nat) (st0 : LoopState) :
    (round env options tools tcv ms st0).state.iteration = st0.iteration + 1 := by
  simp only [round]
  split
  · split
    · simp [RoundOutcome.state, roundEnter]
    · split
      · split
        · simp [RoundOutcome.state, roundEnter, afterSynth]
        · simp [RoundOutcome.state, roundEnter, afterSynth]
      · simp [RoundOutcome.state, roundEnter]
  · split
    · split
      · simp [RoundOutcome.state, roundEnter]
      · simp [RoundOutcome.state, roundEnter]
    · simp only [RoundOutcome.state]
      rw [(processToolCalls_frame env options.isDeepResearch _ _ _).1]
      simp [roundEnter]

theorem agentLoop_iteration_ge (env : Env) (options : ChatOptions) (tools : List ToolDef)
    (tcv : ToolChoice) (ms : Nat) :
    ∀ (fuel : Nat) (st : LoopState),
    st.iteration ≤ ((agentLoop env options tools tcv ms fuel st).state).iteration := by
  intro fuel
  induction fuel with
  | zero => intro st; simp [agentLoop, LoopExit.state]
  | succ n ih =>
    intro st
    simp only [agentLoop]
    split
    · rcases hr : round env options tools tcv ms st with st' | ⟨m, st'⟩ | ⟨e, st'⟩
      · have h1 : st'.iteration = st.iteration + 1 := by
          have := round_iteration env options tools tcv ms st
          rw [hr] at this; exact this
        calc st.iteration ≤ st'.iteration := by omega
          _ ≤ _ := ih st'
      · have h1 : st'.iteration = st.iteration + 1 := by
          have := round_iteration env options tools tcv ms st
          rw [hr] at this; exact this
        simp [LoopExit.state, h1]
      · have h1 : st'.iteration = st.iteration + 1 := by
          have := round_iteration env options tools tcv ms st
          rw [hr] at this; exact this
        simp [LoopExit.state, h1]
    · simp [LoopExit.state]

theorem agentLoop_iteration_le (env : Env) (options : ChatOptions) (tools : List ToolDef)
    (tcv : ToolChoice) (ms : Nat) :
    ∀ (fuel : Nat) (st : LoopState), st.iteration ≤ ms →
    ((agentLoop env options tools tcv ms fuel st).state).iteration ≤ ms := by
  intro fuel
  induction fuel with
  | zero => intro st h; simpa [agentLoop, LoopExit.state] using h
  | succ n ih =>
    intro st h
    simp only [agentLoop]
    split
    · rename_i hguard
      rcases hr : round env options tools tcv ms st with st' | ⟨m, st'⟩ | ⟨e, st'⟩
      · have h1 : st'.iteration = st.iteration + 1 := by
          have := round_iteration env options tools tcv ms st
          rw [hr] at this; exact this
        exact ih st' (by omega)
      · have h1 : st'.iteration = st.iteration + 1 := by
          have := round_iteration env options tools tcv ms st
          rw [hr] at this; exact this
        simp [LoopExit.state, h1]; omega
      · have h1 : st'.iteration = st.iteration + 1 := by
          have := round_iteration env options tools tcv ms st
          rw [hr] at this; exact this
        simp [LoopExit.state, h1]; omega
    · simpa [LoopExit.state] using h

theorem roundCallOptions_no_tools (options : ChatOptions) (tcv : ToolChoice)
    (st0 : LoopState) :
    (roundCallOptions options [] tcv st0).tools = Option.none ∧
    (roundCallOptions options [] tcv st0).tool_choice = Option.none := by
  simp [roundCallOptions]

theorem round_requests_no_tools (env : Env) (options : ChatOptions)
    (tcv : ToolChoice) (ms : Nat) (st0 : LoopState) :
    ∀ req ∈ (round env options [] tcv ms st0).state.requests,
      req ∈ st0.requests ∨ (req.tools = Option.none ∧ req.tool_choice = Option.none) := by
  have hrco := roundCallOptions_no_tools options tcv st0
  have hmem1 : ∀ req ∈ (roundEnter options [] tcv st0).requests,
      req ∈ st0.requests ∨ (req.tools = Option.none ∧ req.tool_choice = Option.none) := by
    intro req hreq
    simp only [roundEnter] at hreq
    rcases List.mem_append.mp hreq with h | h
    · exact Or.inl h
    · rw [List.mem_singleton.mp h]; exact Or.inr hrco
  have hmem2 : ∀ req ∈ (afterSynth (roundEnter options [] tcv st0)).requests,
      req ∈ st0.requests ∨ (req.tools = Option.none ∧ req.tool_choice = Option.none) := by
    intro req hreq
    simp only [afterSynth] at hreq
    rcases List.mem_append.mp hreq with h | h
    · exact hmem1 req h
    · rw [List.mem_singleton.mp h]; exact Or.inr ⟨rfl, rfl⟩
  intro req hreq
  simp only [round] at hreq
  split at hreq
  · split at hreq
    · exact hmem1 req (by simpa [RoundOutcome.state] using hreq)
    · split at hreq
      · split at hreq
        · exact hmem2 req (by simpa [RoundOutcome.state] using hreq)
        · exact hmem2 req (by simpa [RoundOutcome.state] using hreq)
      · exact hmem1 req (by simpa [RoundOutcome.state] using hreq)
  · split at hreq
    · split at hreq
      · exact hmem1 req (by simpa [RoundOutcome.state] using hreq)
      · exact hmem1 req (by simpa [RoundOutcome.state] using hreq)
    · simp only [RoundOutcome.state] at hreq
      rw [(processToolCalls_frame env options.isDeepResearch _ _ _).2.2.2] at hreq
      exact hmem1 req hreq

theorem round_no_tools_counters (env : Env) (options : ChatOptions)
    (tcv : ToolChoice) (ms : Nat) (st0 : LoopState)
    (honest : ∀ n req, req.tools = Option.none →
      ∀ m, env.provider n req = .ok m → m.tool_calls = []) :
    (round env options [] tcv ms st0).state.totalSearchCount = st0.totalSearchCount ∧
    (round env options [] tcv ms st0).state.searchSteps = st0.searchSteps ∧
    (round env options [] tcv ms st0).state.allSources = st0.allSources := by
  simp only [round]
  split
  · split
    · simp [RoundOutcome.state, roundEnter]
    · split
      · split
        · simp [RoundOutcome.state, roundEnter, afterSynth]
        · simp [RoundOutcome.state, roundEnter, afterSynth]
      · simp [RoundOutcome.state, roundEnter]
  · rename_i assistantMsg heq
    have hfree : assistantMsg.tool_calls = [] :=
      honest st0.providerCalls _ (roundCallOptions_no_tools options tcv st0).1
        assistantMsg heq
    rw [if_pos hfree]
    split
    · simp [RoundOutcome.state, roundEnter]
    · simp [RoundOutcome.state, roundEnter]

theorem agentLoop_no_tools_requests (env : Env) (options : ChatOptions)
    (tcv : ToolChoice) (ms : Nat) :
    ∀ (fuel : Nat) (st : LoopState),
    (∀ req ∈ st.requests, req.tools = Option.none ∧ req.tool_choice = Option.none) →
    ∀ req ∈ ((agentLoop env options [] tcv ms fuel st).state).requests,
      req.tools = Option.none ∧ req.tool_choice = Option.none := by
  intro fuel
  induction fuel with
  | zero => intro st h; simpa [agentLoop, LoopExit.state] using h
  | succ n ih =>
    intro st h
    simp only [agentLoop]
    split
    · rcases hr : round env options [] tcv ms st with st' | ⟨m, st'⟩ | ⟨e, st'⟩
      · refine ih st' (fun req hreq => ?_)
        have := round_requests_no_tools env options tcv ms st req (by rw [hr]; exact hreq)
        rcases this with hmem | hp
        · exact h req hmem
        · exact hp
      · intro req hreq
        have := round_requests_no_tools env options tcv ms st req
          (by rw [hr]; simpa [LoopExit.state] using hreq)
        rcases this with hmem | hp
        · exact h req hmem
        · exact hp
      · intro req hreq
        have := round_requests_no_tools env options tcv ms st req
          (by rw [hr]; simpa [LoopExit.state] using hreq)
        rcases this with hmem | hp
        · exact h req hmem
        · exact hp
    · simpa [LoopExit.state] using h

theorem agentLoop_no_tools_counters (env : Env) (options : ChatOptions)
    (tcv : ToolChoice) (ms : Nat)
    (honest : ∀ n req, req.tools = Option.none →
      ∀ m, env.provider n req = .ok m → m.tool_calls = []) :
    ∀ (fuel : Nat) (st : LoopState),
    ((agentLoop env options [] tcv ms fuel st).state).totalSearchCount = st.totalSearchCount ∧
    ((agentLoop env options [] tcv ms fuel st).state).searchSteps = st.searchSteps ∧
    ((agentLoop env options [] tcv ms fuel st).state).allSources = st.allSources := by
  intro fuel
  induction fuel with
  | zero => intro st; simp [agentLoop, LoopExit.state]
  | succ n ih =>
    intro st
    simp only [agentLoop]
    split
    · rcases hr : round env options [] tcv ms st with st' | ⟨m, st'⟩ | ⟨e, st'⟩
      · have hround := round_no_tools_counters env options tcv ms st honest
        rw [hr] at hround
        have hih := ih st'
        exact ⟨hih.1.trans hround.1, hih.2.1.trans hround.2.1, hih.2.2.trans hround.2.2⟩
      · have hround := round_no_tools_counters env options tcv ms st honest
        rw [hr] at hround
        simpa [LoopExit.state] using hround
      · have hround := round_no_tools_counters env options tcv ms st honest
        rw [hr] at hround
        simpa [LoopExit.state] using hround
    · simp [LoopExit.state]

theorem agentLoop_eq_of_guard (env : Env) (options : ChatOptions) (tools : List ToolDef)
    (tcv : ToolChoice) (ms fuel : Nat) (st : LoopState)
    (hguard : st.iteration < ms) (hfuel : fuel ≠ 0) :
    agentLoop env options tools tcv ms fuel st =
      match round env options tools tcv ms st with
      | .next st' => agentLoop env options tools tcv ms (fuel - 1) st'
      | .answered m st' => .answered m st'
      | .thrown e st' => .thrown e st' := by
  cases fuel with
  | zero => exact absurd rfl hfuel
  | succ n => simp [agentLoop, hguard]

/-- Claim C7: for every run where the model's first response carries no
tool calls and deep-research mode is off (so the continuation minimum
does not apply), the result has `iterationsUsed` (`totalSteps`) equal to
1, no tool steps recorded, `searchPerformed` false, and `toolCallsUsed`
(`totalSearches`) equal to 0. -/
theorem trivial_query_single_iteration
    (env : Env) (message : String) (history : List Message) (opts : ChatOptions)
    (m : AssistantMsg)
    (hdeep : opts.isDeepResearch = false)
    (hm : ∀ req, env.provider 0 req = .ok m)
    (hnotool : m.tool_calls = []) :
    chat env message history (.asObject opts) =
      .success { response := m.content, searchPerformed := false, sources := [],
                 searchSteps := [], totalSteps := 1, totalSearches := 0 } := by
  have hround : round env opts (toolsFor opts) (toolChoiceFor opts) MAX_AGENTIC_STEPS
      { messages := initialMessages env opts message history } =
      .answered m (roundEnter opts (toolsFor opts) (toolChoiceFor opts)
        { messages := initialMessages env opts message history }) := by
    simp only [round]
    rw [hm]
    simp [hnotool, hdeep]
  have hloop : agentLoop env opts (toolsFor opts) (toolChoiceFor opts)
      MAX_AGENTIC_STEPS MAX_AGENTIC_STEPS
      { messages := initialMessages env opts message history } =
      .answered m (roundEnter opts (toolsFor opts) (toolChoiceFor opts)
        { messages := initialMessages env opts message history }) := by
    rw [agentLoop_eq_of_guard env opts (toolsFor opts) (toolChoiceFor opts)
      MAX_AGENTIC_STEPS MAX_AGENTIC_STEPS _ (by norm_num [MAX_AGENTIC_STEPS])
      (by norm_num [MAX_AGENTIC_STEPS]), hround]
  have hms : maxStepsFor opts = MAX_AGENTIC_STEPS := by simp [maxStepsFor, hdeep]
  simp only [chat, chatFull, normalizeOptions, hms]
  rw [hloop]
  simp [roundEnter, deduplicateSources, dedupeAux]

/-- Claim C7 witness: a concrete run hitting the single-iteration path. -/
theorem trivial_query_single_iteration_witness :
    chat
      { provider := fun _ _ => .ok { content := "4" },
        search := fun _ => { success := false },
        extract := fun _ => { success := false } }
      "What is 2 + 2?" [] (.asObject {}) =
      .success { response := "4", searchPerformed := false, sources := [],
                 searchSteps := [], totalSteps := 1, totalSearches := 0 } :=
  trivial_query_single_iteration _ "What is 2 + 2?" [] {} { content := "4" }
    rfl (fun _ => rfl) rfl

/-- Claim C10: invoking `chat` with a bare boolean third argument behaves
identically to invoking it with the options object `{forceSearch: b}`:
the legacy form is normalized before any other processing, so the two
forms produce the same outcome and issue the same requests. -/
theorem legacy_boolean_options_equiv
    (env : Env) (message : String) (history : List Message) (b : Bool) :
    chatFull env message history (.asBool b) =
      chatFull env message history (.asObject { forceSearch := b }) := rfl

theorem maxStepsFor_pos (options : ChatOptions) : 0 < maxStepsFor options := by
  cases h : options.isDeepResearch <;> simp [maxStepsFor, h, MAX_AGENTIC_STEPS]

/-- Claim C6: when the completion endpoint throws a 429 on iteration 1
(zero prior tool calls), the run returns the structured failure with code
`RATE_LIMIT` and its human-readable message, and no synthesis request is
issued: the run's only completion request is the failing one. -/
theorem rate_limit_first_iteration_fails_directly
    (env : Env) (message : String) (history : List Message) (opts : ChatOptions)
    (e : ApiError)
    (hstatus : e.status = some 429)
    (he : ∀ req, env.provider 0 req = .err e) :
    chat env message history (.asObject opts) =
      .failure { success := false, error := "Rate limit exceeded.", code := "RATE_LIMIT" } ∧
    (chatFull env message history (.asObject opts)).requests.length = 1 := by
  have hcond : toolUseFailedCond e = false := by
    simp [toolUseFailedCond, hstatus]
  have hsalv : salvagedAnswer e = Option.none := by
    simp [salvagedAnswer, hcond]
  have hround : round env opts (toolsFor opts) (toolChoiceFor opts) (maxStepsFor opts)
      { messages := initialMessages env opts message history } =
      .thrown e (roundEnter opts (toolsFor opts) (toolChoiceFor opts)
        { messages := initialMessages env opts message history }) := by
    simp only [round]
    rw [he]
    simp [hsalv, roundEnter]
  have hloop : agentLoop env opts (toolsFor opts) (toolChoiceFor opts)
      (maxStepsFor opts) (maxStepsFor opts)
      { messages := initialMessages env opts message history } =
      .thrown e (roundEnter opts (toolsFor opts) (toolChoiceFor opts)
        { messages := initialMessages env opts message history }) := by
    rw [agentLoop_eq_of_guard env opts (toolsFor opts) (toolChoiceFor opts)
      (maxStepsFor opts) (maxStepsFor opts) _ (maxStepsFor_pos opts)
      (Nat.pos_iff_ne_zero.mp (maxStepsFor_pos opts)), hround]
  constructor
  · simp only [chat, chatFull, normalizeOptions]
    rw [hloop]
    simp [handleError, hstatus]
  · simp only [chatFull, normalizeOptions]
    rw [hloop]
    simp [roundEnter]

/-- Claim C6 witness: a concrete 429-on-first-call run. -/
theorem rate_limit_first_iteration_witness :
    chat
      { provider := fun _ _ => .err { status := some 429 },
        search := fun _ => { success := false },
        extract := fun _ => { success := false } }
      "q" [] (.asObject {}) =
      .failure { success := false, error := "Rate limit exceeded.", code := "RATE_LIMIT" } ∧
    (chatFull
      { provider := fun _ _ => .err { status := some 429 },
        search := fun _ => { success := false },
        extract := fun _ => { success := false } }
      "q" [] (.asObject {})).requests.length = 1 :=
  rate_limit_first_iteration_fails_directly _ "q" [] {} { status := some 429 }
    rfl (fun _ => rfl)

/-- Claim C8 counterexample: on a single source whose `url` is empty
(falsy), the code's deduplicator drops the entry entirely, while the
spec's first-occurrence-wins deduplication keeps it — so the output is
not the first-occurrence-wins subsequence the claim describes. -/
theorem dedupe_empty_url_cx :
    deduplicateSources [{ title := "t", url := "", domain := "", favicon := "" }] = [] ∧
    dedupeSpec [{ title := "t", url := "", domain := "", favicon := "" }] =
      [{ title := "t", url := "", domain := "", favicon := "" }] ∧
    deduplicateSources [{ title := "t", url := "", domain := "", favicon := "" }] ≠
      dedupeSpec [{ title := "t", url := "", domain := "", favicon := "" }] := by
  exact ⟨rfl, rfl, by decide⟩

/-- Claim C8 (amended): `deduplicateSources` equals the spec's
first-occurrence-wins deduplication applied after discarding every entry
with an empty/absent URL; the output has no two entries with equal URL
and is a subsequence of the input.  (As a Lean function the embedding is
pure by construction, matching the claim's purity requirement.) -/
theorem dedupe_unique_by_url_first_wins (sources : List Source) :
    deduplicateSources sources = dedupeSpec (sources.filter (fun s => s.url ≠ "")) ∧
    (deduplicateSources sources).Sublist sources ∧
    (deduplicateSources sources).Pairwise (fun a b => a.url ≠ b.url) :=
  ⟨dedupeAux_eq_spec_filter sources [], dedupeAux_sublist sources [],
   dedupeAux_pairwise sources []⟩

/-- Claim C4 counterexample: on `invalidJsonEnv` the run does append the
tagged error tool-result and continue to a second iteration, but the
returned `totalSearches` is 0 (the claim says the attempt still
increments it) and `searchSteps` is empty (the claim says a step with
status error is recorded). -/
theorem invalid_json_args_do_not_count_cx :
    (chatFull invalidJsonEnv "q" [] (.asObject {})).outcome =
      .success { response := "done", searchPerformed := false, sources := [],
                 searchSteps := [], totalSteps := 2, totalSearches := 0 } ∧
    ((chatFull invalidJsonEnv "q" [] (.asObject {})).requests.getD 1
        { model := "", messages := [], temperatureTenths := 0 }).messages.drop 2 =
      [ { role := .assistant, content := "",
          tool_calls := [{ id := "call_1", name := "web_search",
                           parsedArgs := Option.none }] },
        { role := .tool, content := "Invalid JSON arguments.",
          tool_call_id := some "call_1" } ] := by
  exact ⟨by decide, by decide⟩

/-- Claim C4 (amended): a tool call whose arguments fail to parse yields
the tool-result message `Invalid JSON arguments.` tagged with the
originating call's id and leaves the state untouched — in particular
`toolCallsUsed` does not increment for the attempt and no step (error or
otherwise) is recorded — and the orchestrator does not abort: any
response carrying tool calls leads the loop to re-enter (`next`), never
to a thrown error. -/
theorem invalid_json_args_recovery
    (env : Env) (d : Bool) (i : Nat) (st : LoopState) (tc : ToolCall)
    (h : tc.parsedArgs = Option.none) :
    processOneToolCall env d i st tc =
      ({ role := .tool, content := "Invalid JSON arguments.",
         tool_call_id := some tc.id }, st) ∧
    (∀ (opts : ChatOptions) (tools : List ToolDef) (tcv : ToolChoice) (ms : Nat)
        (st0 : LoopState) (m : AssistantMsg),
      (∀ req, env.provider st0.providerCalls req = .ok m) → m.tool_calls ≠ [] →
      (round env opts tools tcv ms st0).isNext = true) := by
  constructor
  · simp [processOneToolCall, h]
  · intro opts tools tcv ms st0 m hm hcalls
    simp only [round]
    rw [hm]
    simp [hcalls, RoundOutcome.isNext]

/-- Claim C4 amended witness: the parse-failure branch evaluated on a
concrete call, and the loop re-entering on a concrete tool-carrying
response. -/
theorem invalid_json_args_recovery_witness :
    processOneToolCall invalidJsonEnv false 1 { messages := [] }
      { id := "call_1", name := "web_search", parsedArgs := Option.none } =
      ({ role := .tool, content := "Invalid JSON arguments.",
         tool_call_id := some "call_1" }, { messages := [] }) ∧
    (∀ (opts : ChatOptions) (tools : List ToolDef) (tcv : ToolChoice) (ms : Nat)
        (st0 : LoopState) (m : AssistantMsg),
      (∀ req, invalidJsonEnv.provider st0.providerCalls req = .ok m) →
      m.tool_calls ≠ [] →
      (round invalidJsonEnv opts tools tcv ms st0).isNext = true) :=
  invalid_json_args_recovery invalidJsonEnv false 1 { messages := [] }
    { id := "call_1", name := "web_search", parsedArgs := Option.none } rfl

/-- Claim C5 counterexample: on `extractThenErrorEnv` the provider fails
after one successful tool call (the extraction, whose result the second
request's transcript carries), yet the run surfaces the error directly —
only two completion requests are ever issued, so no degraded-synthesis
request follows the failure.  The gate is `totalSearchCount > 0`, which
counts only parsed `web_search` attempts. -/
theorem degraded_synthesis_gate_cx :
    (chatFull extractThenErrorEnv "q" [] (.asObject { isDeepResearch := true })).outcome =
      .failure { success := false, error := "AI service temporarily unavailable.",
                 code := "GROQ_ERROR" } ∧
    (chatFull extractThenErrorEnv "q" [] (.asObject { isDeepResearch := true })).requests.length = 2 ∧
    ((chatFull extractThenErrorEnv "q" [] (.asObject { isDeepResearch := true })).requests.getD 1
        { model := "", messages := [], temperatureTenths := 0 }).messages.drop 2 =
      [ { role := .assistant, content := "",
          tool_calls := [{ id := "c1", name := "browser_extract",
                           parsedArgs := some { urls := ["http://a"] } }] },
        { role := .tool, content := "Extracted Content:\nURL: http://a\nCONTENT: body",
          tool_call_id := some "c1" } ] := by
  exact ⟨by decide, by decide, by decide⟩

/-- Claim C5 (amended): when a completion call throws an error with no
salvageable `tool_use_failed` text, the recovery branch is gated on
`totalSearchCount` — the number of `web_search` calls whose arguments
parsed, regardless of their success and not counting `browser_extract`:
with zero such attempts the original error is rethrown directly (no
synthesis request); with at least one, a tool-free degraded-synthesis
request over the accumulated transcript is issued, its answer ends the
loop, and only if it also fails is the original error rethrown. -/
theorem degraded_synthesis_gated_on_search_count
    (env : Env) (opts : ChatOptions) (tools : List ToolDef) (tcv : ToolChoice)
    (ms : Nat) (st0 : LoopState) (e : ApiError)
    (he : ∀ req, env.provider st0.providerCalls req = .err e)
    (hsalv : salvagedAnswer e = Option.none) :
    (st0.totalSearchCount = 0 →
      round env opts tools tcv ms st0 = .thrown e (roundEnter opts tools tcv st0)) ∧
    (0 < st0.totalSearchCount →
      (synthRequest (roundEnter opts tools tcv st0)).tools = Option.none ∧
      ((∃ m, env.provider (st0.providerCalls + 1)
            (synthRequest (roundEnter opts tools tcv st0)) = .ok m ∧
          round env opts tools tcv ms st0 =
            .answered m (afterSynth (roundEnter opts tools tcv st0))) ∨
       (∃ e2, env.provider (st0.providerCalls + 1)
            (synthRequest (roundEnter opts tools tcv st0)) = .err e2 ∧
          round env opts tools tcv ms st0 =
            .thrown e (afterSynth (roundEnter opts tools tcv st0))))) := by
  constructor
  · intro h0
    simp only [round]
    rw [he]
    simp [hsalv, roundEnter, h0]
  · intro h0
    refine ⟨rfl, ?_⟩
    rcases hs : env.provider (st0.providerCalls + 1)
        (synthRequest (roundEnter opts tools tcv st0)) with m | e2
    · refine Or.inl ⟨m, rfl, ?_⟩
      simp only [round]
      rw [he]
      simp only [hsalv]
      rw [if_pos (by simpa [roundEnter] using h0)]
      have : (roundEnter opts tools tcv st0).providerCalls = st0.providerCalls + 1 := rfl
      rw [this, hs]
    · refine Or.inr ⟨e2, rfl, ?_⟩
      simp only [round]
      rw [he]
      simp only [hsalv]
      rw [if_pos (by simpa [roundEnter] using h0)]
      have : (roundEnter opts tools tcv st0).providerCalls = st0.providerCalls + 1 := rfl
      rw [this, hs]

/-- Claim C5 amended witness: both gate directions at concrete states —
a state with one parsed search attempt receives a degraded synthesis,
a state with none rethrows directly. -/
theorem degraded_synthesis_gated_witness :
    ((({ messages := [], totalSearchCount := 1 } : LoopState).totalSearchCount = 0 →
      round { provider := fun n _ => if n = 0 then .err { status := some 500 }
                                      else .ok { content := "saved" },
              search := failingSearch, extract := failingExtract }
        {} [] ToolChoice.auto 6 { messages := [], totalSearchCount := 1 } =
        .thrown { status := some 500 }
          (roundEnter {} [] ToolChoice.auto { messages := [], totalSearchCount := 1 })) ∧
    (0 < ({ messages := [], totalSearchCount := 1 } : LoopState).totalSearchCount →
      (synthRequest (roundEnter {} [] ToolChoice.auto
          { messages := [], totalSearchCount := 1 })).tools = Option.none ∧
      ((∃ m, ({ provider := fun n _ => if n = 0 then .err { status := some 500 }
                                        else .ok { content := "saved" },
                search := failingSearch, extract := failingExtract } : Env).provider 1
            (synthRequest (roundEnter {} [] ToolChoice.auto
              { messages := [], totalSearchCount := 1 })) = .ok m ∧
          round { provider := fun n _ => if n = 0 then .err { status := some 500 }
                                          else .ok { content := "saved" },
                  search := failingSearch, extract := failingExtract }
            {} [] ToolChoice.auto 6 { messages := [], totalSearchCount := 1 } =
            .answered m (afterSynth (roundEnter {} [] ToolChoice.auto
              { messages := [], totalSearchCount := 1 }))) ∨
       (∃ e2, ({ provider := fun n _ => if n = 0 then .err { status := some 500 }
                                         else .ok { content := "saved" },
                 search := failingSearch, extract := failingExtract } : Env).provider 1
            (synthRequest (roundEnter {} [] ToolChoice.auto
              { messages := [], totalSearchCount := 1 })) = .err e2 ∧
          round { provider := fun n _ => if n = 0 then .err { status := some 500 }
                                          else .ok { content := "saved" },
                  search := failingSearch, extract := failingExtract }
            {} [] ToolChoice.auto 6 { messages := [], totalSearchCount := 1 } =
            .thrown { status := some 500 }
              (afterSynth (roundEnter {} [] ToolChoice.auto
                { messages := [], totalSearchCount := 1 })))))) :=
  degraded_synthesis_gated_on_search_count _ {} [] ToolChoice.auto 6
    { messages := [], totalSearchCount := 1 } { status := some 500 }
    (fun _ => rfl) rfl

theorem chatFull_success_totalSteps (env : Env) (message : String)
    (history : List Message) (oofs : OptionsOrForceSearch) (r : ChatResult)
    (h : (chatFull env message history oofs).outcome = .success r) :
    r.totalSteps =
      ((agentLoop env (normalizeOptions oofs)
          (toolsFor (normalizeOptions oofs)) (toolChoiceFor (normalizeOptions oofs))
          (maxStepsFor (normalizeOptions oofs)) (maxStepsFor (normalizeOptions oofs))
          { messages := initialMessages env (normalizeOptions oofs) message history
          }).state).iteration := by
  simp only [chatFull] at h
  split at h
  · rename_i m st heq
    rw [heq]
    simp only [ChatOutcome.success.injEq] at h
    rw [← h]
    rfl
  · rename_i st heq
    rw [heq]
    split at h
    · rename_i m hok
      simp only [ChatOutcome.success.injEq] at h
      rw [← h]
      rfl
    · simp at h
  · rename_i e st heq
    simp at h

/-- Claim C2: (a) every successful run uses at most the configured
maximum number of iterations (10 in deep-research mode, 6 otherwise);
(b) for a tool-free response the forced-continuation override either
does not fire (the loop ends with that answer) or fires exactly once,
appending one assistant reply and one synthetic instruction; (c) the
returned `totalSteps` always equals the loop-exit iteration count, and
when the loop exhausts its budget the final synthesis request is one
extra completion request that does not change that count. -/
theorem iteration_budget_and_synthesis_accounting :
    (∀ (env : Env) (message : String) (history : List Message)
       (oofs : OptionsOrForceSearch) (r : ChatResult),
       chat env message history oofs = .success r →
       r.totalSteps ≤ maxStepsFor (normalizeOptions oofs)) ∧
    (∀ (env : Env) (opts : ChatOptions) (tools : List ToolDef) (tcv : ToolChoice)
       (ms : Nat) (st : LoopState) (m : AssistantMsg),
       (∀ req, env.provider st.providerCalls req = .ok m) → m.tool_calls = [] →
       round env opts tools tcv ms st = .answered m (roundEnter opts tools tcv st) ∨
       round env opts tools tcv ms st =
         .next { roundEnter opts tools tcv st with
           messages := st.messages ++ [assistantToMessage m, continuationMessage] }) ∧
    (∀ (env : Env) (message : String) (history : List Message)
       (oofs : OptionsOrForceSearch),
       (∀ r, chat env message history oofs = .success r →
          r.totalSteps =
            ((agentLoop env (normalizeOptions oofs)
                (toolsFor (normalizeOptions oofs)) (toolChoiceFor (normalizeOptions oofs))
                (maxStepsFor (normalizeOptions oofs)) (maxStepsFor (normalizeOptions oofs))
                { messages := initialMessages env (normalizeOptions oofs) message history
                }).state).iteration) ∧
       ((agentLoop env (normalizeOptions oofs)
            (toolsFor (normalizeOptions oofs)) (toolChoiceFor (normalizeOptions oofs))
            (maxStepsFor (normalizeOptions oofs)) (maxStepsFor (normalizeOptions oofs))
            { messages := initialMessages env (normalizeOptions oofs) message history
            }).isExhausted = true →
          (chatFull env message history oofs).requests.length =
            ((agentLoop env (normalizeOptions oofs)
                (toolsFor (normalizeOptions oofs)) (toolChoiceFor (normalizeOptions oofs))
                (maxStepsFor (normalizeOptions oofs)) (maxStepsFor (normalizeOptions oofs))
                { messages := initialMessages env (normalizeOptions oofs) message history
                }).state).requests.length + 1)) := by
  refine ⟨?_, ?_, ?_⟩
  · intro env message history oofs r h
    rw [chatFull_success_totalSteps env message history oofs r h]
    exact agentLoop_iteration_le env (normalizeOptions oofs) _ _ _ _ _ (Nat.zero_le _)
  · intro env opts tools tcv ms st m hm hfree
    simp only [round]
    rw [hm]
    simp only [hfree, if_true]
    split
    · right; rfl
    · left; rfl
  · intro env message history oofs
    constructor
    · intro r h
      exact chatFull_success_totalSteps env message history oofs r h
    · intro hex
      rcases hexit : agentLoop env (normalizeOptions oofs)
          (toolsFor (normalizeOptions oofs)) (toolChoiceFor (normalizeOptions oofs))
          (maxStepsFor (normalizeOptions oofs)) (maxStepsFor (normalizeOptions oofs))
          { messages := initialMessages env (normalizeOptions oofs) message history }
        with ⟨m, st⟩ | st | ⟨e, st⟩
      · rw [hexit] at hex; simp [LoopExit.isExhausted] at hex
      · unfold chatFull
        simp only []
        rw [hexit]
        simp only [LoopExit.state]
        split
        · simp
        · simp
      · rw [hexit] at hex; simp [LoopExit.isExhausted] at hex

theorem agentLoop_next_step (env : Env) (options : ChatOptions) (tools : List ToolDef)
    (tcv : ToolChoice) (ms fuel : Nat) (st st' : LoopState)
    (hguard : st.iteration < ms) (hfuel : fuel ≠ 0)
    (hr : round env options tools tcv ms st = .next st') :
    agentLoop env options tools tcv ms fuel st =
      agentLoop env options tools tcv ms (fuel - 1) st' := by
  rw [agentLoop_eq_of_guard env options tools tcv ms fuel st hguard hfuel, hr]

theorem agentLoop_exit_iteration_ge_one (env : Env) (options : ChatOptions)
    (tools : List ToolDef) (tcv : ToolChoice) (ms fuel : Nat) (st : LoopState)
    (hguard : st.iteration < ms) (hfuel : fuel ≠ 0) :
    st.iteration + 1 ≤ ((agentLoop env options tools tcv ms fuel st).state).iteration := by
  rw [agentLoop_eq_of_guard env options tools tcv ms fuel st hguard hfuel]
  rcases hr : round env options tools tcv ms st with st' | ⟨m, st'⟩ | ⟨e, st'⟩
  · have h1 : st'.iteration = st.iteration + 1 := by
      have := round_iteration env options tools tcv ms st
      rw [hr] at this; exact this
    have h2 := agentLoop_iteration_ge env options tools tcv ms (fuel - 1) st'
    calc st.iteration + 1 = st'.iteration := h1.symm
      _ ≤ _ := h2
  · have h1 : st'.iteration = st.iteration + 1 := by
      have := round_iteration env options tools tcv ms st
      rw [hr] at this; exact this
    exact le_of_eq h1.symm
  · have h1 : st'.iteration = st.iteration + 1 := by
      have := round_iteration env options tools tcv ms st
      rw [hr] at this; exact this
    exact le_of_eq h1.symm

/-- Claim C1: in deep-research mode, when the model answers with zero
tool calls while fewer than the minimum number of searches have run and
iteration budget remains (here: on iteration 1), the loop does not
terminate — the tool-free assistant reply and the synthetic
more-investigation user instruction are appended to the transcript and
the loop re-enters Reasoning — and a successful run then reports
`iterationsUsed ≥ 2`. -/
theorem deep_shallow_run_forces_continuation
    (env : Env) (message : String) (history : List Message) (opts : ChatOptions)
    (m : AssistantMsg)
    (hdeep : opts.isDeepResearch = true)
    (hm : ∀ req, env.provider 0 req = .ok m)
    (hnotool : m.tool_calls = []) :
    round env opts (toolsFor opts) (toolChoiceFor opts) (maxStepsFor opts)
        { messages := initialMessages env opts message history } =
      .next { roundEnter opts (toolsFor opts) (toolChoiceFor opts)
            { messages := initialMessages env opts message history } with
          messages := initialMessages env opts message history ++
            [assistantToMessage m, continuationMessage] } ∧
    (∀ r, chat env message history (.asObject opts) = .success r → 2 ≤ r.totalSteps) := by
  have hround : round env opts (toolsFor opts) (toolChoiceFor opts) (maxStepsFor opts)
      { messages := initialMessages env opts message history } =
      .next { roundEnter opts (toolsFor opts) (toolChoiceFor opts)
            { messages := initialMessages env opts message history } with
          messages := initialMessages env opts message history ++
            [assistantToMessage m, continuationMessage] } := by
    simp only [round]
    rw [hm]
    simp [hnotool, hdeep, roundEnter, maxStepsFor, MAX_AGENTIC_STEPS]
  refine ⟨hround, ?_⟩
  intro r hr
  have htotal := chatFull_success_totalSteps env message history (.asObject opts) r hr
  simp only [normalizeOptions] at htotal
  obtain ⟨st1, hst1⟩ : ∃ st1, round env opts (toolsFor opts) (toolChoiceFor opts)
      (maxStepsFor opts) { messages := initialMessages env opts message history } =
      .next st1 := ⟨_, hround⟩
  have hit1 : st1.iteration = 1 := by
    have h := round_iteration env opts (toolsFor opts) (toolChoiceFor opts)
      (maxStepsFor opts) { messages := initialMessages env opts message history }
    rw [hst1] at h
    simpa using h
  have hstep := agentLoop_next_step env opts (toolsFor opts) (toolChoiceFor opts)
    (maxStepsFor opts) (maxStepsFor opts)
    { messages := initialMessages env opts message history } st1
    (by simpa using maxStepsFor_pos opts)
    (Nat.pos_iff_ne_zero.mp (maxStepsFor_pos opts)) hst1
  rw [htotal, hstep]
  have hge := agentLoop_exit_iteration_ge_one env opts (toolsFor opts) (toolChoiceFor opts)
    (maxStepsFor opts) (maxStepsFor opts - 1) st1
    (by rw [hit1]; simp [maxStepsFor, hdeep])
    (by simp [maxStepsFor, hdeep, MAX_AGENTIC_STEPS])
  rw [hit1] at hge
  exact hge

/-- Claim C1 witness: a concrete deep run whose first reply is tool-free
re-enters the loop with the two appended messages, and the resulting
successful run reports 10 iterations (≥ 2). -/
theorem deep_shallow_run_forces_continuation_witness :
    round plainAnswerEnv { isDeepResearch := true }
        (toolsFor { isDeepResearch := true }) (toolChoiceFor { isDeepResearch := true })
        (maxStepsFor { isDeepResearch := true })
        { messages := initialMessages plainAnswerEnv { isDeepResearch := true } "q" [] } =
      .next { roundEnter { isDeepResearch := true }
            (toolsFor { isDeepResearch := true }) (toolChoiceFor { isDeepResearch := true })
            { messages := initialMessages plainAnswerEnv { isDeepResearch := true } "q" [] } with
          messages := initialMessages plainAnswerEnv { isDeepResearch := true } "q" [] ++
            [assistantToMessage { content := "4" }, continuationMessage] } ∧
    2 ≤ ({ response := "4", searchPerformed := false, sources := [], searchSteps := [],
           totalSteps := 10, totalSearches := 0 } : ChatResult).totalSteps :=
  ⟨(deep_shallow_run_forces_continuation plainAnswerEnv "q" [] { isDeepResearch := true }
      { content := "4" } rfl (fun _ => rfl) rfl).1,
   (deep_shallow_run_forces_continuation plainAnswerEnv "q" [] { isDeepResearch := true }
      { content := "4" } rfl (fun _ => rfl) rfl).2 _ (by decide)⟩

/-- Claim C2 witness: the budget bound on a one-iteration run, the
tool-free-response dichotomy at a concrete state, the totalSteps/loop
agreement on a concrete run, and the extra uncounted synthesis request
on a run whose loop exhausts its budget. -/
theorem iteration_budget_and_synthesis_accounting_witness :
    plainResult.totalSteps ≤ maxStepsFor (normalizeOptions (.asObject {})) ∧
    (round plainAnswerEnv {} [] ToolChoice.auto 6 { messages := [] } =
        .answered { content := "4" } (roundEnter {} [] ToolChoice.auto { messages := [] }) ∨
     round plainAnswerEnv {} [] ToolChoice.auto 6 { messages := [] } =
        .next { roundEnter {} [] ToolChoice.auto { messages := [] } with
          messages := ({ messages := [] } : LoopState).messages ++
            [assistantToMessage { content := "4" }, continuationMessage] }) ∧
    plainResult.totalSteps =
      ((agentLoop plainAnswerEnv (normalizeOptions (.asObject {}))
          (toolsFor (normalizeOptions (.asObject {})))
          (toolChoiceFor (normalizeOptions (.asObject {})))
          (maxStepsFor (normalizeOptions (.asObject {})))
          (maxStepsFor (normalizeOptions (.asObject {})))
          { messages := initialMessages plainAnswerEnv
              (normalizeOptions (.asObject {})) "q" [] }).state).iteration ∧
    (chatFull alwaysSearchEnv "q" [] (.asObject {})).requests.length =
      ((agentLoop alwaysSearchEnv (normalizeOptions (.asObject {}))
          (toolsFor (normalizeOptions (.asObject {})))
          (toolChoiceFor (normalizeOptions (.asObject {})))
          (maxStepsFor (normalizeOptions (.asObject {})))
          (maxStepsFor (normalizeOptions (.asObject {})))
          { messages := initialMessages alwaysSearchEnv
              (normalizeOptions (.asObject {})) "q" [] }).state).requests.length + 1 :=
  ⟨iteration_budget_and_synthesis_accounting.1 plainAnswerEnv "q" [] (.asObject {})
      _ (by decide),
   iteration_budget_and_synthesis_accounting.2.1 plainAnswerEnv {} [] ToolChoice.auto 6
      { messages := [] } { content := "4" } (fun _ => rfl) rfl,
   (iteration_budget_and_synthesis_accounting.2.2 plainAnswerEnv "q" [] (.asObject {})).1
      _ (by decide),
   (iteration_budget_and_synthesis_accounting.2.2 alwaysSearchEnv "q" [] (.asObject {})).2
      (by decide)⟩

/-- Claim C3: with a non-empty pre-supplied `context`, the tool list is
emptied and the tool-choice directive is set to `none` (the request then
omits both fields, as the source passes `undefined` when no tools are
sent); every completion request issued by such a run offers no tools,
and — provided the provider honours an empty tool offer by never
returning tool calls — no tool calls are executed: the run reports zero
searches, no steps, and no sources. -/
theorem context_mode_offers_no_tools
    (env : Env) (message : String) (history : List Message) (opts : ChatOptions)
    (hctx : opts.context ≠ "") :
    toolsFor opts = [] ∧
    toolChoiceFor opts = ToolChoice.none ∧
    (∀ req ∈ (chatFull env message history (.asObject opts)).requests,
      req.tools = Option.none ∧ req.tool_choice = Option.none) ∧
    ((∀ n req, req.tools = Option.none →
        ∀ m, env.provider n req = .ok m → m.tool_calls = []) →
      ∀ r, chat env message history (.asObject opts) = .success r →
        r.totalSearches = 0 ∧ r.searchPerformed = false ∧
        r.searchSteps = [] ∧ r.sources = []) := by
  have htools : toolsFor opts = [] := by simp [toolsFor, hctx]
  have htc : toolChoiceFor opts = ToolChoice.none := by simp [toolChoiceFor, hctx]
  have hvac : ∀ req ∈ ({ messages := initialMessages env opts message history } :
      LoopState).requests, req.tools = Option.none ∧ req.tool_choice = Option.none := by
    intro req h
    simp at h
  refine ⟨htools, htc, ?_, ?_⟩
  · intro req hreq
    unfold chatFull at hreq
    simp only [normalizeOptions] at hreq
    rw [htools] at hreq
    have hloopreq := agentLoop_no_tools_requests env opts (toolChoiceFor opts)
      (maxStepsFor opts) (maxStepsFor opts)
      { messages := initialMessages env opts message history } hvac
    split at hreq
    · rename_i m st heq
      rw [heq] at hloopreq
      exact hloopreq req hreq
    · rename_i st heq
      rw [heq] at hloopreq
      simp only [LoopExit.state] at hloopreq
      split at hreq
      · simp only [List.mem_append, List.mem_singleton] at hreq
        rcases hreq with h | h
        · exact hloopreq req h
        · rw [h]; exact ⟨rfl, rfl⟩
      · simp only [List.mem_append, List.mem_singleton] at hreq
        rcases hreq with h | h
        · exact hloopreq req h
        · rw [h]; exact ⟨rfl, rfl⟩
    · rename_i e st heq
      rw [heq] at hloopreq
      exact hloopreq req hreq
  · intro honest r hr
    have hcnt := agentLoop_no_tools_counters env opts (toolChoiceFor opts)
      (maxStepsFor opts) honest (maxStepsFor opts)
      { messages := initialMessages env opts message history }
    unfold chat chatFull at hr
    simp only [normalizeOptions] at hr
    rw [htools] at hr
    split at hr
    · rename_i m st heq
      rw [heq] at hcnt
      simp only [LoopExit.state] at hcnt
      simp only [ChatOutcome.success.injEq] at hr
      rw [← hr]
      simp [hcnt.1, hcnt.2.1, hcnt.2.2, deduplicateSources, dedupeAux]
    · rename_i st heq
      rw [heq] at hcnt
      simp only [LoopExit.state] at hcnt
      split at hr
      · simp only [ChatOutcome.success.injEq] at hr
        rw [← hr]
        simp [hcnt.1, hcnt.2.1, hcnt.2.2, deduplicateSources, dedupeAux]
      · simp at hr
    · simp at hr

/-- Claim C3 witness: a concrete context-mode run (the provider, offered
no tools, answers plainly) — the tool strategy, the per-request fields,
and the no-tool-execution conclusion at the run's actual result. -/
theorem context_mode_offers_no_tools_witness :
    toolsFor { context := "doc" } = [] ∧
    toolChoiceFor { context := "doc" } = ToolChoice.none ∧
    (∀ req ∈ (chatFull plainAnswerEnv "q" [] (.asObject { context := "doc" })).requests,
      req.tools = Option.none ∧ req.tool_choice = Option.none) ∧
    (plainResult.totalSearches = 0 ∧
     plainResult.searchPerformed = false ∧
     plainResult.searchSteps = [] ∧
     plainResult.sources = []) :=
  have h := context_mode_offers_no_tools plainAnswerEnv "q" [] { context := "doc" }
    (by decide)
  ⟨h.1, h.2.1, h.2.2.1,
   h.2.2.2 (fun _ _ _ m hm => by cases hm; rfl) _ (by decide)⟩

/-- Claim C9: only `web_search` invocations touch the search counter and
the source pool — across any batch of tool calls the counter grows by
exactly the number of `web_search` calls whose arguments parsed (the
value the deep-research continuation minimum is compared against),
`browser_extract` changes neither the counter nor the sources, a batch
with no `web_search` call contributes no sources at all, and every
successful run reports `searchPerformed` true exactly when
`totalSearches` is positive. -/
theorem only_web_search_counts :
    (∀ (env : Env) (d : Bool) (i : Nat) (st : LoopState) (calls : List ToolCall),
      (processToolCalls env d i st calls).2.totalSearchCount =
        st.totalSearchCount + countParsedWebSearch calls) ∧
    (∀ (env : Env) (d : Bool) (i : Nat) (st : LoopState) (tc : ToolCall),
      tc.name = "browser_extract" →
      (processOneToolCall env d i st tc).2.totalSearchCount = st.totalSearchCount ∧
      (processOneToolCall env d i st tc).2.allSources = st.allSources) ∧
    (∀ (env : Env) (d : Bool) (i : Nat) (st : LoopState) (calls : List ToolCall),
      (∀ tc ∈ calls, tc.name ≠ "web_search") →
      (processToolCalls env d i st calls).2.allSources = st.allSources) ∧
    (∀ (env : Env) (message : String) (history : List Message)
       (oofs : OptionsOrForceSearch) (r : ChatResult),
      chat env message history oofs = .success r →
      r.searchPerformed = decide (0 < r.totalSearches)) := by
  refine ⟨?_, ?_, ?_, ?_⟩
  · intro env d i st calls
    exact processToolCalls_count env d i calls st
  · intro env d i st tc hname
    have hne : tc.name ≠ "web_search" := by simp [hname]
    constructor
    · have h := processOneToolCall_count env d i st tc
      have hz : countParsedWebSearch [tc] = 0 := by
        simp [countParsedWebSearch, List.filter, hname]
      rw [h, hz]
      omega
    · exact processOneToolCall_sources_of_other env d i st tc hne
  · intro env d i st calls hall
    exact processToolCalls_sources_of_other env d i calls st hall
  · intro env message history oofs r hr
    unfold chat chatFull at hr
    simp only [normalizeOptions] at hr
    split at hr
    · simp only [ChatOutcome.success.injEq] at hr
      rw [← hr]
    · split at hr
      · simp only [ChatOutcome.success.injEq] at hr
        rw [← hr]
      · simp at hr
    · simp at hr

/-- Claim C9 witness: the counting facts at a concrete batch (one parsed
`web_search`, one `browser_extract`, one unparseable call), and the
`searchPerformed` relation at a concrete successful run. -/
theorem only_web_search_counts_witness :
    (processToolCalls plainAnswerEnv false 1 { messages := [] }
        [{ id := "a", name := "web_search", parsedArgs := some { query := "x" } },
         { id := "b", name := "browser_extract", parsedArgs := some { urls := ["u"] } },
         { id := "c", name := "web_search", parsedArgs := Option.none }]).2.totalSearchCount =
      ({ messages := [] } : LoopState).totalSearchCount +
        countParsedWebSearch
          [{ id := "a", name := "web_search", parsedArgs := some { query := "x" } },
           { id := "b", name := "browser_extract", parsedArgs := some { urls := ["u"] } },
           { id := "c", name := "web_search", parsedArgs := Option.none }] ∧
    ((processOneToolCall plainAnswerEnv false 1 { messages := [] }
        { id := "b", name := "browser_extract",
          parsedArgs := some { urls := ["u"] } }).2.totalSearchCount =
      ({ messages := [] } : LoopState).totalSearchCount ∧
     (processOneToolCall plainAnswerEnv false 1 { messages := [] }
        { id := "b", name := "browser_extract",
          parsedArgs := some { urls := ["u"] } }).2.allSources =
      ({ messages := [] } : LoopState).allSources) ∧
    (processToolCalls plainAnswerEnv false 1 { messages := [] }
        [{ id := "b", name := "browser_extract",
           parsedArgs := some { urls := ["u"] } }]).2.allSources =
      ({ messages := [] } : LoopState).allSources ∧
    plainResult.searchPerformed = decide (0 < plainResult.totalSearches) :=
  ⟨only_web_search_counts.1 plainAnswerEnv false 1 { messages := [] } _,
   only_web_search_counts.2.1 plainAnswerEnv false 1 { messages := [] } _ rfl,
   only_web_search_counts.2.2.1 plainAnswerEnv false 1 { messages := [] } _
     (by intro tc htc; simp at htc; rw [htc]; decide),
   only_web_search_counts.2.2.2 plainAnswerEnv "q" [] (.asObject {}) _ (by decide)⟩

end GroqService
